import Mathlib

/-!
Verification development for the powSrv IPC client (src/client.go).

The decode state machine, response table, polling wait, and PowFunc
argument handling are embedded from src/client.go.  The frame codec
helpers that live outside src (BytesToIpcFrameV1, the crc8 table,
the command byte constants, NewIpcMessageV1/ToBytes) are modelled from
the specification and are marked as such in their doc comments.
Bytes are modelled as Nat (values < 256 in every reachable run), Go
ints as Int.
-/

namespace PowSrv

/-- An IPC frame as used by client.go: fields ReqID, Command, Data
(requestId, command byte, payload bytes). -/
structure IpcFrameV1 where
  ReqID : Nat
  Command : Nat
  Data : List Nat
deriving DecidableEq

/-- The frame-decode states of PowClient.receive
(FrameStateSearchEnq .. FrameStateSearchCRC). -/
inductive FrameState where
  | searchEnq
  | searchVersion
  | searchLength
  | searchData
  | searchCRC
deriving DecidableEq

/-- Modelled from the spec: one bit step of the CRC-8 used by crc8.Checksum
with the crc8Table (polynomial 0x07, no reflection, zero init/xorout). -/
def crc8BitStep (c : Nat) : Nat :=
  if 128 ≤ c then ((c % 128) * 2) ^^^ 7 else c * 2

/-- Modelled from the spec: folding one input byte into the CRC-8 register. -/
def crc8ByteStep (crc b : Nat) : Nat :=
  crc8BitStep^[8] ((crc ^^^ b) % 256)

/-- Modelled from the spec: crc8.Checksum(frameData, crc8Table) — an 8-bit CRC
over requestId ++ command ++ payload (the crc8 library is not under src). -/
def crc8Checksum (data : List Nat) : Nat :=
  data.foldl crc8ByteStep 0

/-- Modelled from the spec: BytesToIpcFrameV1 (not under src) — frameData is
requestId ++ command ++ payload, so fewer than two bytes cannot form a frame. -/
def BytesToIpcFrameV1 (d : List Nat) : Option IpcFrameV1 :=
  match d with
  | r :: c :: rest => some ⟨r, c, rest⟩
  | _ => none

/-- The state carried across reads by PowClient.receive: the loop locals
frameState / frameLength / frameData, the shared responses map, and — as a
ghost field for specification only — the list of frames stored so far, in
the order they were stored. -/
structure RecvState where
  frameState : FrameState
  frameLength : Int
  frameData : List Nat
  responses : Nat → Option IpcFrameV1
  decoded : List IpcFrameV1

/-- responses[frame.ReqID] = frame (client.go line 121), plus the ghost
decoded-frames list. -/
def storeFrame (s : RecvState) (fr : IpcFrameV1) : RecvState :=
  { s with
    responses := fun k => if k = fr.ReqID then some fr else s.responses k
    decoded := s.decoded ++ [fr] }

/-- The FrameStateSearchCRC case of receive (client.go 105-123): compare the
byte against the checksum of frameData, convert frameData to a frame,
store it on success; in every outcome the state returns to SearchEnq and
the loop moves to the next byte. -/
def crcCheck (s : RecvState) (b : Nat) : RecvState :=
  if b ≠ crc8Checksum s.frameData then { s with frameState := .searchEnq }
  else
    match BytesToIpcFrameV1 s.frameData with
    | none => { s with frameState := .searchEnq }
    | some fr => { storeFrame s fr with frameState := .searchEnq }

/-- Rank used only for the termination measure of the inner loop: the one
recursive call that does not advance bufferIdx is SearchData handing the
very byte it stands on over to SearchCRC. -/
def frameStateRank : FrameState → Nat
  | .searchData => 1
  | _ => 0

/-- The inner for-loop of PowClient.receive (client.go 61-129), processing one
read buffer from position bufferIdx.  Mirrors the Go loop: bufferIdx is the
value after the loop-head increment; the SearchData case either copies the
missing bytes en bloc and jumps behind them (Go: bufferIdx +=
missingByteCount - 1 plus the head increment) or copies the rest of the
buffer and leaves the loop (Go: bufferIdx = bufLength plus the head
increment).  missingByteCount.toNat equals Go's missingByteCount whenever
it is nonnegative, which holds in every reachable state since frameData
never grows beyond frameLength. -/
def receiveInner (buf : List Nat) (s : RecvState) (bufferIdx : Nat) : RecvState :=
  if h : bufferIdx < buf.length then
    match hst : s.frameState with
    | .searchEnq =>
      if buf[bufferIdx] = 5 then
        receiveInner buf
          { s with frameLength := -1, frameData := [], frameState := .searchVersion }
          (bufferIdx + 1)
      else
        receiveInner buf s (bufferIdx + 1)
    | .searchVersion =>
      if buf[bufferIdx] = 1 then
        receiveInner buf { s with frameState := .searchLength } (bufferIdx + 1)
      else
        receiveInner buf { s with frameState := .searchEnq } (bufferIdx + 1)
    | .searchLength =>
      if s.frameLength = -1 then
        receiveInner buf
          { s with frameLength := ((buf[bufferIdx] : Int) <<< (8 : Int)) }
          (bufferIdx + 1)
      else
        receiveInner buf
          { s with frameLength := Int.lor s.frameLength (buf[bufferIdx] : Int)
                   frameState := .searchData }
          (bufferIdx + 1)
    | .searchData =>
      let missingByteCount : Int := s.frameLength - s.frameData.length
      if (buf.length : Int) - bufferIdx ≥ missingByteCount then
        receiveInner buf
          { s with frameData := s.frameData ++ (buf.drop bufferIdx).take missingByteCount.toNat
                   frameState := .searchCRC }
          (bufferIdx + missingByteCount.toNat)
      else
        receiveInner buf
          { s with frameData := s.frameData ++ buf.drop bufferIdx }
          (buf.length + 1)
    | .searchCRC =>
      receiveInner buf (crcCheck s buf[bufferIdx]) (bufferIdx + 1)
  else s
termination_by 2 * (buf.length + 1 - bufferIdx) + frameStateRank s.frameState
decreasing_by
  · simp only [hst, frameStateRank]; omega
  · simp only [hst, frameStateRank]; omega
  · simp only [hst, frameStateRank]; omega
  · simp only [hst, frameStateRank]; omega
  · simp only [hst, frameStateRank]; omega
  · simp only [hst, frameStateRank]; omega
  · simp only [hst, frameStateRank]; omega
  · simp only [hst, frameStateRank]; omega
  · have hcrc : (crcCheck s buf[bufferIdx]).frameState = FrameState.searchEnq := by
      unfold crcCheck
      split
      · rfl
      · split <;> rfl
    simp only [hst, hcrc, frameStateRank]
    omega

/-- Byte-at-a-time reference semantics of the same state machine: the effect
of receive on one byte.  SearchData with no missing byte is the Go detour
that steps to SearchCRC and re-reads the same byte there. -/
def receiveByteStep (s : RecvState) (b : Nat) : RecvState :=
  match s.frameState with
  | .searchEnq =>
    if b = 5 then
      { s with frameLength := -1, frameData := [], frameState := .searchVersion }
    else s
  | .searchVersion =>
    if b = 1 then { s with frameState := .searchLength }
    else { s with frameState := .searchEnq }
  | .searchLength =>
    if s.frameLength = -1 then { s with frameLength := ((b : Int) <<< (8 : Int)) }
    else { s with frameLength := Int.lor s.frameLength (b : Int), frameState := .searchData }
  | .searchData =>
    if s.frameLength ≤ (s.frameData.length : Int) then crcCheck s b
    else if s.frameLength ≤ ((s.frameData.length + 1 : Nat) : Int) then
      { s with frameData := s.frameData ++ [b], frameState := .searchCRC }
    else
      { s with frameData := s.frameData ++ [b] }
  | .searchCRC => crcCheck s b

/-- Folding the byte-at-a-time semantics over a byte list. -/
def receiveBytes (s : RecvState) (l : List Nat) : RecvState :=
  l.foldl receiveByteStep s

/-- Processing of one complete read buffer (the inner loop entered at
bufferIdx = 0, i.e. after Go's initial bufferIdx = -1 and the head
increment). -/
def processBuffer (s : RecvState) (buf : List Nat) : RecvState :=
  receiveInner buf s 0

/-- The outcomes of one Connection.Read call as seen by receive's outer loop. -/
inductive ReadEvent where
  | ok (buf : List Nat)
  | err
deriving DecidableEq

/-- One iteration of receive's outer for-loop (client.go 53-130).  On a read
error the code executes continue, so the state is unchanged and the loop
proceeds to the next Read; the loop body contains no return or break out of
the outer loop, so the goroutine never leaves it. -/
def receiveLoopIter (s : RecvState) : ReadEvent → RecvState
  | .err => s
  | .ok buf => processBuffer s buf

/-- receive's outer loop run over a finite sequence of read events; being a
total function of the event list, it is still looping (never exited) after
any such sequence. -/
def receiveLoop (s : RecvState) (events : List ReadEvent) : RecvState :=
  events.foldl receiveLoopIter s

/-- Feeding a sequence of read buffers to receive, one Read each. -/
def processReads (s : RecvState) (reads : List (List Nat)) : RecvState :=
  reads.foldl processBuffer s

/-- receive's initial state (client.go 45-47) with Init's fresh empty
responses map. -/
def initRecvState : RecvState :=
  { frameState := .searchEnq
    frameLength := 0
    frameData := []
    responses := fun _ => none
    decoded := [] }

/-- Modelled from the spec: the wire frame encoder (spec section 6) —
[SYNC 0x05, VERSION 0x01, lengthHi, lengthLo] ++ requestId ++ command ++
payload ++ [checksum], length big-endian over requestId ++ command ++
payload. -/
def encodeIpcFrameV1 (requestId command : Nat) (payload : List Nat) : List Nat :=
  let body := requestId :: command :: payload
  5 :: 1 :: (body.length >>> 8) :: (body.length % 256) :: (body ++ [crc8Checksum body])

/-- The Go error values produced by the client paths under study: a fixed
message from errors.New / fmt.Errorf, the payload bytes of an Error frame
interpreted as the message text, or the unknown-command error carrying the
offending command byte. -/
inductive GoError where
  | message (text : String)
  | errorFrameText (data : List Nat)
  | unknownCommand (cmd : Nat)
deriving DecidableEq

/-- Modelled from the spec: the command byte constants (implementation-fixed
values defined outside src); only their distinctness matters here. -/
def IpcCmdNotification : Nat := 1

/-- Modelled from the spec: command byte for a Response frame. -/
def IpcCmdResponse : Nat := 2

/-- Modelled from the spec: command byte for an Error frame. -/
def IpcCmdError : Nat := 3

/-- Modelled from the spec: command byte for GetServerVersion. -/
def IpcCmdGetServerVersion : Nat := 4

/-- Modelled from the spec: command byte for GetPowType. -/
def IpcCmdGetPowType : Nat := 5

/-- Modelled from the spec: command byte for GetPowVersion. -/
def IpcCmdGetPowVersion : Nat := 6

/-- Modelled from the spec: command byte for PowFunc. -/
def IpcCmdPowFunc : Nat := 7

/-- The reply dispatch of sendIpcFrameV1ToServer (client.go 206-218): switch
on the correlated frame's command. -/
def evalResponseFrame (frame : IpcFrameV1) : Except GoError (List Nat) :=
  if frame.Command = IpcCmdResponse then Except.ok frame.Data
  else if frame.Command = IpcCmdError then Except.error (.errorFrameText frame.Data)
  else Except.error (.unknownCommand frame.Command)

/-- The claiming step of a waiting caller (client.go 195-200): look up its own
request id in the shared responses map, and delete the entry when found.
Returns the frame found (if any) and the table afterwards. -/
def claimResponse (responses : Nat → Option IpcFrameV1) (reqID : Nat) :
    Option IpcFrameV1 × (Nat → Option IpcFrameV1) :=
  match responses reqID with
  | some frame => (some frame, fun k => if k = reqID then none else responses k)
  | none => (none, responses)

/-- One iteration of the polling wait as observed by the caller: the value of
time.Since(ts) in milliseconds at the timeout test, and the contents of the
shared responses map at the subsequent lookup. -/
structure PollObs where
  elapsedMs : Int
  table : Nat → Option IpcFrameV1

/-- The polling wait of sendIpcFrameV1ToServer (client.go 187-204) run over a
finite trace of iterations: first test the timeout, then look up (and claim)
reqID.  none means the trace ended with the loop still polling. -/
def pollForResponse (td : Int) (reqID : Nat) :
    List PollObs → Option (Except GoError IpcFrameV1)
  | [] => none
  | o :: rest =>
    if o.elapsedMs > td then some (Except.error (.message "Receive timeout"))
    else
      match (claimResponse o.table reqID).1 with
      | some frame => some (Except.ok frame)
      | none => pollForResponse td reqID rest

/-- The per-instance state of a PowClient relevant to request correlation:
only the RequestId counter lives on the struct (client.go 17-25). -/
structure PowClientState where
  RequestId : Nat

/-- Two PowClient instances in one process. -/
inductive ClientId where
  | one
  | two
deriving DecidableEq

/-- A process holding two independent PowClient instances.  Each instance owns
its RequestId counter, but — exactly as in client.go lines 27-28 — there is
one package-level responses map shared by every instance in the process. -/
structure TwoClientWorld where
  client1 : PowClientState
  client2 : PowClientState
  responses : Nat → Option IpcFrameV1

/-- Request-id allocation (client.go 169-172): p.RequestId++ on the given
instance; a byte counter, so it wraps mod 256. -/
def allocRequestId (w : TwoClientWorld) : ClientId → Nat × TwoClientWorld
  | .one =>
    ((w.client1.RequestId + 1) % 256,
      { w with client1 := ⟨(w.client1.RequestId + 1) % 256⟩ })
  | .two =>
    ((w.client2.RequestId + 1) % 256,
      { w with client2 := ⟨(w.client2.RequestId + 1) % 256⟩ })

/-- The receive goroutine of the given instance storing a decoded frame
(client.go 120-122); it writes to the one package-level map, whichever
instance it serves. -/
def storeResponse (w : TwoClientWorld) (_owner : ClientId) (frame : IpcFrameV1) :
    TwoClientWorld :=
  { w with responses := fun k => if k = frame.ReqID then some frame else w.responses k }

/-- What a call on the given instance polling for reqID observes in the shared
map (client.go 195-200). -/
def observeResponse (w : TwoClientWorld) (_caller : ClientId) (reqID : Nat) :
    Option IpcFrameV1 :=
  (claimResponse w.responses reqID).1

/-- The local difficulty check and request payload of PowFunc (client.go
242-248): reject minWeightMagnitude outside 0..=243 before any send,
otherwise the request data is the difficulty byte followed by the trytes
bytes. -/
def powFuncRequestData (trytes : List Nat) (minWeightMagnitude : Int) :
    Except GoError (List Nat) :=
  if minWeightMagnitude < 0 ∨ minWeightMagnitude > 243 then
    Except.error (.message "minWeightMagnitude out of range [0-243]")
  else Except.ok (minWeightMagnitude.toNat :: trytes)

/-- A byte of the tryte alphabet: the character 9 (ASCII 57) or A..Z (ASCII
65..90), as fixed by TRYTE_CHARS in client_test.go. -/
def isTryteByte (b : Nat) : Bool :=
  b == 57 || (65 ≤ b && b ≤ 90)

/-- Modelled from the spec: giota.ToTrytes (external library) — accepts
exactly byte strings over the tryte alphabet, errors otherwise. -/
def ToTrytes (s : List Nat) : Except GoError (List Nat) :=
  if s.all isTryteByte then Except.ok s else Except.error (.message "invalid trytes")

/-- The response handling of PowFunc (client.go 255-260): validate the server
response as trytes; on validation error return the empty result with the
error. -/
def powFuncResult (response : List Nat) : Except GoError (List Nat) :=
  match ToTrytes response with
  | .error e => Except.error e
  | .ok result => Except.ok result

/-- The request message handed to sendToServer (built by NewIpcMessageV1,
which is defined outside src). -/
structure IpcMessage where
  reqID : Nat
  command : Nat
  data : List Nat

/-- Modelled from the spec: IpcMessage.ToBytes (defined outside src) —
serializes the frame and fails if the payload length would overflow the
16-bit length field. -/
def ipcMessageToBytes (m : IpcMessage) : Except GoError (List Nat) :=
  if m.data.length + 2 > 65535 then
    Except.error (.message "payload length overflows the 16-bit length field")
  else Except.ok (encodeIpcFrameV1 m.reqID m.command m.data)

/-- sendToServer (client.go 135-163): serialize the message, then the
nil-connection guard, then the write.  hasConnection models
p.Connection ≠ nil; the result pairs the returned error (if any) with the
bytes written to the connection ([] = nothing written). -/
def sendToServer (hasConnection : Bool) (requestMsg : IpcMessage) :
    Except GoError Unit × List Nat :=
  match ipcMessageToBytes requestMsg with
  | .error e => (Except.error e, [])
  | .ok request =>
    if !hasConnection then (Except.error (.message "Connection not established"), [])
    else (Except.ok (), request)

/-! ### Basic facts about the byte-at-a-time semantics -/

theorem receiveBytes_nil (s : RecvState) : receiveBytes s [] = s := rfl

theorem receiveBytes_cons (s : RecvState) (b : Nat) (l : List Nat) :
    receiveBytes s (b :: l) = receiveBytes (receiveByteStep s b) l := rfl

theorem receiveBytes_append (s : RecvState) (l₁ l₂ : List Nat) :
    receiveBytes s (l₁ ++ l₂) = receiveBytes (receiveBytes s l₁) l₂ := by
  simp [receiveBytes]

theorem receiveBytes_singleton (s : RecvState) (b : Nat) :
    receiveBytes s [b] = receiveByteStep s b := rfl

theorem crcCheck_state_irrel (s : RecvState) (x : FrameState) (b : Nat) :
    crcCheck { s with frameState := x } b = crcCheck s b := by
  cases s
  rfl

/-! ### One-step unfolding lemmas for the inner read loop -/

theorem receiveInner_stop (buf : List Nat) (s : RecvState) (i : Nat)
    (h : ¬ i < buf.length) : receiveInner buf s i = s := by
  unfold receiveInner
  rw [dif_neg h]

theorem receiveInner_enq (buf : List Nat) (s : RecvState) (i : Nat)
    (h : i < buf.length) (hst : s.frameState = .searchEnq) :
    receiveInner buf s i =
      if buf[i] = 5 then
        receiveInner buf
          { s with frameLength := -1, frameData := [], frameState := .searchVersion } (i + 1)
      else receiveInner buf s (i + 1) := by
  conv_lhs => unfold receiveInner
  rw [dif_pos h]
  split
  all_goals rename_i heq
  all_goals rw [hst] at heq
  all_goals first
    | rfl
    | exact FrameState.noConfusion heq

theorem receiveInner_version (buf : List Nat) (s : RecvState) (i : Nat)
    (h : i < buf.length) (hst : s.frameState = .searchVersion) :
    receiveInner buf s i =
      if buf[i] = 1 then receiveInner buf { s with frameState := .searchLength } (i + 1)
      else receiveInner buf { s with frameState := .searchEnq } (i + 1) := by
  conv_lhs => unfold receiveInner
  rw [dif_pos h]
  split
  all_goals rename_i heq
  all_goals rw [hst] at heq
  all_goals first
    | rfl
    | exact FrameState.noConfusion heq

theorem receiveInner_length (buf : List Nat) (s : RecvState) (i : Nat)
    (h : i < buf.length) (hst : s.frameState = .searchLength) :
    receiveInner buf s i =
      if s.frameLength = -1 then
        receiveInner buf { s with frameLength := ((buf[i] : Int) <<< (8 : Int)) } (i + 1)
      else
        receiveInner buf
          { s with frameLength := Int.lor s.frameLength (buf[i] : Int)
                   frameState := .searchData } (i + 1) := by
  conv_lhs => unfold receiveInner
  rw [dif_pos h]
  split
  all_goals rename_i heq
  all_goals rw [hst] at heq
  all_goals first
    | rfl
    | exact FrameState.noConfusion heq

theorem receiveInner_data (buf : List Nat) (s : RecvState) (i : Nat)
    (h : i < buf.length) (hst : s.frameState = .searchData) :
    receiveInner buf s i =
      if (buf.length : Int) - i ≥ s.frameLength - s.frameData.length then
        receiveInner buf
          { s with
            frameData :=
              s.frameData ++ (buf.drop i).take (s.frameLength - s.frameData.length).toNat
            frameState := .searchCRC }
          (i + (s.frameLength - s.frameData.length).toNat)
      else
        receiveInner buf { s with frameData := s.frameData ++ buf.drop i }
          (buf.length + 1) := by
  conv_lhs => unfold receiveInner
  rw [dif_pos h]
  split
  all_goals rename_i heq
  all_goals rw [hst] at heq
  all_goals first
    | rfl
    | exact FrameState.noConfusion heq

theorem receiveInner_crc (buf : List Nat) (s : RecvState) (i : Nat)
    (h : i < buf.length) (hst : s.frameState = .searchCRC) :
    receiveInner buf s i = receiveInner buf (crcCheck s buf[i]) (i + 1) := by
  conv_lhs => unfold receiveInner
  rw [dif_pos h]
  split
  all_goals rename_i heq
  all_goals rw [hst] at heq
  all_goals first
    | rfl
    | exact FrameState.noConfusion heq

/-! ### The SearchData phase under the byte-at-a-time semantics -/

theorem receiveBytes_fill (chunk : List Nat) :
    ∀ (s : RecvState), s.frameState = .searchData →
      s.frameLength = ((s.frameData.length + chunk.length : Nat) : Int) →
      chunk ≠ [] →
      receiveBytes s chunk =
        { s with frameData := s.frameData ++ chunk, frameState := .searchCRC } := by
  induction chunk with
  | nil => intro s _ _ hne; exact absurd rfl hne
  | cons b rest ih =>
    intro s hst hlen _
    rw [receiveBytes_cons]
    have hnotle : ¬ s.frameLength ≤ (s.frameData.length : Int) := by
      rw [hlen]; push_cast [List.length_cons]; omega
    have hstep : receiveByteStep s b =
        if s.frameLength ≤ ((s.frameData.length + 1 : Nat) : Int) then
          { s with frameData := s.frameData ++ [b], frameState := .searchCRC }
        else { s with frameData := s.frameData ++ [b] } := by
      simp [receiveByteStep, hst, hnotle]
    rw [hstep]
    cases rest with
    | nil =>
      rw [if_pos (by rw [hlen]; push_cast [List.length_cons, List.length_nil]; omega)]
      rfl
    | cons c rs =>
      rw [if_neg (by rw [hlen]; push_cast [List.length_cons, List.length_nil]; omega)]
      rw [ih { s with frameData := s.frameData ++ [b] } hst
        (by show s.frameLength = ((s.frameData ++ [b]).length + (c :: rs).length : Nat)
            rw [hlen]
            push_cast [List.length_append, List.length_cons, List.length_nil]
            omega)
        (List.cons_ne_nil c rs)]
      simp [List.append_assoc]

/-! ### The SearchData phase left incomplete by a read -/

theorem receiveBytes_shortRead (chunk : List Nat) :
    ∀ (s : RecvState), s.frameState = .searchData →
      ((s.frameData.length + chunk.length : Nat) : Int) < s.frameLength →
      receiveBytes s chunk = { s with frameData := s.frameData ++ chunk } := by
  induction chunk with
  | nil =>
    intro s _ _
    rw [receiveBytes_nil, List.append_nil]
  | cons b rest ih =>
    intro s hst hlt
    rw [receiveBytes_cons]
    have hnotle : ¬ s.frameLength ≤ (s.frameData.length : Int) := by
      push_cast [List.length_cons] at hlt
      omega
    have hnotle1 : ¬ s.frameLength ≤ ((s.frameData.length + 1 : Nat) : Int) := by
      push_cast [List.length_cons] at hlt ⊢
      omega
    have hstep : receiveByteStep s b = { s with frameData := s.frameData ++ [b] } := by
      simp only [receiveByteStep, hst]
      rw [if_neg hnotle, if_neg hnotle1]
    rw [hstep]
    rw [ih { s with frameData := s.frameData ++ [b] } hst
      (by show (((s.frameData ++ [b]).length + rest.length : Nat) : Int) < s.frameLength
          push_cast [List.length_append, List.length_cons, List.length_nil] at hlt ⊢
          omega)]
    simp [List.append_assoc]

/-! ### The inner loop coincides with the byte-at-a-time semantics -/

theorem receiveInner_eq_receiveBytes (buf : List Nat) (s : RecvState) (i : Nat) :
    receiveInner buf s i = receiveBytes s (buf.drop i) := by
  suffices H : ∀ (n : Nat) (s : RecvState) (i : Nat), buf.length + 1 - i ≤ n →
      receiveInner buf s i = receiveBytes s (buf.drop i) from
    H (buf.length + 1 - i) s i le_rfl
  intro n
  induction n with
  | zero =>
    intro s i hle
    rw [receiveInner_stop buf s i (by omega), List.drop_eq_nil_of_le (by omega),
      receiveBytes_nil]
  | succ n ih =>
    intro s i hle
    by_cases h : i < buf.length
    case neg =>
      rw [receiveInner_stop buf s i h, List.drop_eq_nil_of_le (by omega), receiveBytes_nil]
    case pos =>
      have hdrop : buf.drop i = buf[i] :: buf.drop (i + 1) := List.drop_eq_getElem_cons h
      cases hst : s.frameState
      case searchEnq =>
        rw [receiveInner_enq buf s i h hst, hdrop, receiveBytes_cons]
        have hstep : receiveByteStep s buf[i] =
            if buf[i] = 5 then
              { s with frameLength := -1, frameData := [], frameState := .searchVersion }
            else s := by
          simp only [receiveByteStep, hst]
        rw [hstep]
        by_cases hb : buf[i] = 5
        · rw [if_pos hb, if_pos hb]
          exact ih _ (i + 1) (by omega)
        · rw [if_neg hb, if_neg hb]
          exact ih _ (i + 1) (by omega)
      case searchVersion =>
        rw [receiveInner_version buf s i h hst, hdrop, receiveBytes_cons]
        have hstep : receiveByteStep s buf[i] =
            if buf[i] = 1 then { s with frameState := .searchLength }
            else { s with frameState := .searchEnq } := by
          simp only [receiveByteStep, hst]
        rw [hstep]
        by_cases hb : buf[i] = 1
        · rw [if_pos hb, if_pos hb]
          exact ih _ (i + 1) (by omega)
        · rw [if_neg hb, if_neg hb]
          exact ih _ (i + 1) (by omega)
      case searchLength =>
        rw [receiveInner_length buf s i h hst, hdrop, receiveBytes_cons]
        have hstep : receiveByteStep s buf[i] =
            if s.frameLength = -1 then
              { s with frameLength := ((buf[i] : Int) <<< (8 : Int)) }
            else
              { s with frameLength := Int.lor s.frameLength (buf[i] : Int)
                       frameState := .searchData } := by
          simp only [receiveByteStep, hst]
        rw [hstep]
        by_cases hb : s.frameLength = -1
        · rw [if_pos hb, if_pos hb]
          exact ih _ (i + 1) (by omega)
        · rw [if_neg hb, if_neg hb]
          exact ih _ (i + 1) (by omega)
      case searchCRC =>
        rw [receiveInner_crc buf s i h hst, hdrop, receiveBytes_cons]
        have hstep : receiveByteStep s buf[i] = crcCheck s buf[i] := by
          simp only [receiveByteStep, hst]
        rw [hstep]
        exact ih _ (i + 1) (by omega)
      case searchData =>
        rw [receiveInner_data buf s i h hst]
        by_cases hge : (buf.length : Int) - i ≥ s.frameLength - s.frameData.length
        case pos =>
          rw [if_pos hge]
          by_cases hm : s.frameLength ≤ (s.frameData.length : Int)
          case pos =>
            -- no byte missing: the loop hands the current byte to SearchCRC
            have ht : (s.frameLength - (s.frameData.length : Int)).toNat = 0 := by omega
            rw [ht]
            simp only [List.take_zero, List.append_nil, Nat.add_zero]
            rw [receiveInner_crc buf _ i h rfl]
            rw [ih _ (i + 1) (by omega)]
            rw [hdrop, receiveBytes_cons]
            have hstep : receiveByteStep s buf[i] = crcCheck s buf[i] := by
              simp only [receiveByteStep, hst, if_pos hm]
            rw [hstep, crcCheck_state_irrel]
          case neg =>
            have hm1 : 1 ≤ s.frameLength - (s.frameData.length : Int) := by omega
            have hmle : (s.frameLength - (s.frameData.length : Int)).toNat ≤
                buf.length - i := by omega
            have hm0 : 0 < (s.frameLength - (s.frameData.length : Int)).toNat := by omega
            have hchunklen :
                ((buf.drop i).take (s.frameLength - (s.frameData.length : Int)).toNat).length
                  = (s.frameLength - (s.frameData.length : Int)).toNat := by
              rw [List.length_take, List.length_drop]
              omega
            rw [ih _ (i + (s.frameLength - (s.frameData.length : Int)).toNat) (by omega)]
            have hsplit : buf.drop i =
                (buf.drop i).take (s.frameLength - (s.frameData.length : Int)).toNat ++
                  buf.drop (i + (s.frameLength - (s.frameData.length : Int)).toNat) := by
              conv_lhs =>
                rw [← List.take_append_drop
                  (s.frameLength - (s.frameData.length : Int)).toNat (buf.drop i)]
              rw [List.drop_drop]
            conv_rhs => rw [hsplit]
            rw [receiveBytes_append]
            rw [receiveBytes_fill _ s hst
              (by rw [hchunklen]; push_cast; omega)
              (by
                intro hnil
                rw [hnil] at hchunklen
                simp at hchunklen
                omega)]
        case neg =>
          rw [if_neg hge]
          rw [receiveInner_stop buf _ (buf.length + 1) (by omega)]
          rw [receiveBytes_shortRead _ s hst
            (by
              rw [List.length_drop]
              push_cast
              omega)]

/-- Each read buffer is handled exactly as the byte-at-a-time semantics. -/
theorem processBuffer_eq (s : RecvState) (buf : List Nat) :
    processBuffer s buf = receiveBytes s buf := by
  unfold processBuffer
  rw [receiveInner_eq_receiveBytes, List.drop_zero]

/-- Feeding a sequence of reads is the byte-at-a-time semantics of their
concatenation. -/
theorem processReads_eq (reads : List (List Nat)) :
    ∀ (s : RecvState), processReads s reads = receiveBytes s reads.flatten := by
  induction reads with
  | nil => intro s; rfl
  | cons r rs ih =>
    intro s
    show processReads (processBuffer s r) rs = receiveBytes s ((r :: rs).flatten)
    rw [ih, processBuffer_eq, List.flatten_cons, receiveBytes_append]

/-! ### Reassembling the big-endian length field -/

theorem length_field_recombine (len : Nat) :
    ((len >>> 8) <<< 8) ||| (len % 256) = len := by
  apply Nat.eq_of_testBit_eq
  intro i
  rw [Nat.testBit_or, Nat.testBit_shiftLeft, Nat.testBit_shiftRight,
    show (256 : Nat) = 2 ^ 8 from rfl, Nat.testBit_mod_two_pow]
  by_cases hi : 8 ≤ i
  · simp [hi, Nat.add_sub_cancel' hi, Nat.not_lt.mpr hi]
  · simp [hi, Nat.lt_of_not_le hi]

theorem int_shiftLeft_eight (m : Nat) :
    (m : Int) <<< (8 : Int) = ((m <<< 8 : Nat) : Int) := by
  rw [show ((8 : Int)) = ((8 : Nat) : Int) from rfl, Int.shiftLeft_coe_nat]

theorem int_lor_ofNat (m n : Nat) :
    Int.lor (m : Int) (n : Int) = ((m ||| n : Nat) : Int) := rfl

/-! ### Decoding one encoded frame -/

theorem receiveBytes_encode (s : RecvState) (hst : s.frameState = .searchEnq)
    (r c : Nat) (p : List Nat) :
    receiveBytes s (encodeIpcFrameV1 r c p) =
      { frameState := .searchEnq
        frameLength := ((p.length + 2 : Nat) : Int)
        frameData := r :: c :: p
        responses := fun k => if k = r then some ⟨r, c, p⟩ else s.responses k
        decoded := s.decoded ++ [⟨r, c, p⟩] } := by
  have hlen : (r :: c :: p).length = p.length + 2 := by
    simp
  have h1 : receiveByteStep s 5 =
      { s with frameLength := -1, frameData := [], frameState := .searchVersion } := by
    simp [receiveByteStep, hst]
  have h2 : receiveByteStep
      { s with frameLength := -1, frameData := [], frameState := .searchVersion } 1 =
      { s with frameLength := -1, frameData := [], frameState := .searchLength } := by
    simp [receiveByteStep]
  have h3 : receiveByteStep
      { s with frameLength := -1, frameData := [], frameState := .searchLength }
      ((r :: c :: p).length >>> 8) =
      { s with frameLength := ((((r :: c :: p).length >>> 8) <<< 8 : Nat) : Int)
               frameData := [], frameState := .searchLength } := by
    simp [receiveByteStep, int_shiftLeft_eight]
  have hlor : Int.lor ((((r :: c :: p).length >>> 8) <<< 8 : Nat) : Int)
      ((((r :: c :: p).length % 256 : Nat)) : Int) = (((r :: c :: p).length : Nat) : Int) := by
    rw [int_lor_ofNat, length_field_recombine]
  have h4 : receiveByteStep
      { s with frameLength := ((((r :: c :: p).length >>> 8) <<< 8 : Nat) : Int)
               frameData := [], frameState := .searchLength }
      ((r :: c :: p).length % 256) =
      { s with frameLength := (((r :: c :: p).length : Nat) : Int)
               frameData := [], frameState := .searchData } := by
    have hne : ¬ (((((r :: c :: p).length >>> 8) <<< 8 : Nat) : Int) = -1) := by
      omega
    simp only [receiveByteStep]
    rw [if_neg hne, hlor]
  show receiveBytes s
      (5 :: 1 :: ((r :: c :: p).length >>> 8) :: ((r :: c :: p).length % 256) ::
        ((r :: c :: p) ++ [crc8Checksum (r :: c :: p)])) = _
  rw [receiveBytes_cons, h1, receiveBytes_cons, h2, receiveBytes_cons, h3,
    receiveBytes_cons, h4, receiveBytes_append]
  rw [receiveBytes_fill (r :: c :: p) _ rfl (by simp) (by simp)]
  rw [receiveBytes_singleton]
  simp [receiveByteStep, crcCheck, BytesToIpcFrameV1, storeFrame, hlen]

/-! ### Noise before the sync byte -/

theorem receiveBytes_noise (noise : List Nat) :
    ∀ (s : RecvState), s.frameState = .searchEnq → (∀ b ∈ noise, b ≠ 5) →
      receiveBytes s noise = s := by
  induction noise with
  | nil => intro s _ _; rfl
  | cons b rest ih =>
    intro s hst hb
    rw [receiveBytes_cons]
    have hstep : receiveByteStep s b = s := by
      simp [receiveByteStep, hst, hb b (List.mem_cons_self b rest)]
    rw [hstep]
    exact ih s hst (fun x hx => hb x (List.mem_cons_of_mem b hx))

/-! ### Claim theorems -/

/-- C1: for every valid encoded frame and every split of its bytes into
non-empty chunks, feeding the chunks one Read at a time to the receive
state machine reaches exactly the same state (responses map included) as
feeding the whole buffer in a single Read, and the single decoded frame is
the encoded one (same requestId, command, payload). -/
theorem receive_chunked_eq_single_read (r c : Nat) (p : List Nat)
    (chunks : List (List Nat))
    (hr : r < 256) (hc : c < 256) (hp : ∀ b ∈ p, b < 256)
    (hlen : p.length + 2 ≤ 65535)
    (hne : ∀ ch ∈ chunks, ch ≠ [])
    (hjoin : chunks.flatten = encodeIpcFrameV1 r c p) :
    processReads initRecvState chunks = processBuffer initRecvState (encodeIpcFrameV1 r c p)
    ∧ (processReads initRecvState chunks).decoded = [⟨r, c, p⟩] := by
  have h1 : processReads initRecvState chunks =
      receiveBytes initRecvState (encodeIpcFrameV1 r c p) := by
    rw [processReads_eq, hjoin]
  have h2 : processBuffer initRecvState (encodeIpcFrameV1 r c p) =
      receiveBytes initRecvState (encodeIpcFrameV1 r c p) := processBuffer_eq _ _
  refine ⟨h1.trans h2.symm, ?_⟩
  rw [h1, receiveBytes_encode _ rfl]
  simp [initRecvState]

/-- Witness for C1 at requestId 1, command 2, payload [3], split into a
3-byte chunk and the rest. -/
theorem receive_chunked_eq_single_read_witness :
    ((1 : Nat) < 256 ∧ (2 : Nat) < 256 ∧ (∀ b ∈ [(3 : Nat)], b < 256)
      ∧ [(3 : Nat)].length + 2 ≤ 65535
      ∧ (∀ ch ∈ [(encodeIpcFrameV1 1 2 [3]).take 3, (encodeIpcFrameV1 1 2 [3]).drop 3],
          ch ≠ [])
      ∧ [(encodeIpcFrameV1 1 2 [3]).take 3, (encodeIpcFrameV1 1 2 [3]).drop 3].flatten
          = encodeIpcFrameV1 1 2 [3])
    ∧ (processReads initRecvState
          [(encodeIpcFrameV1 1 2 [3]).take 3, (encodeIpcFrameV1 1 2 [3]).drop 3]
        = processBuffer initRecvState (encodeIpcFrameV1 1 2 [3])
      ∧ (processReads initRecvState
          [(encodeIpcFrameV1 1 2 [3]).take 3, (encodeIpcFrameV1 1 2 [3]).drop 3]).decoded
        = [⟨1, 2, [3]⟩]) :=
  ⟨⟨by decide, by decide, by decide, by decide, by decide, by decide⟩,
    receive_chunked_eq_single_read 1 2 [3] _
      (by decide) (by decide) (by decide) (by decide) (by decide) (by decide)⟩

/-- C2 (evidence of the code bug): receive's outer loop does continue on a
read error, so the loop state is unchanged and the loop keeps running — a
frame arriving in a later read is still decoded — instead of terminating
when the transport errors or closes. -/
theorem receive_loop_survives_transport_error :
    receiveLoop initRecvState [ReadEvent.err] = initRecvState
    ∧ (receiveLoop initRecvState
        [ReadEvent.err, ReadEvent.ok (encodeIpcFrameV1 1 2 [3])]).decoded = [⟨1, 2, [3]⟩] := by
  constructor
  · rfl
  · show (processBuffer initRecvState (encodeIpcFrameV1 1 2 [3])).decoded = _
    rw [processBuffer_eq]
    decide

/-- C4 counterexample: with noise that itself contains a sync byte followed
by the version byte (here [5, 1]), the stream noise ++ [0x05] ++ [bad
version] ++ valid frame decodes to NO frame at all — the decoder is stuck
collecting 0x0500 data bytes — so the claim fails for arbitrary noise. -/
theorem resync_arbitrary_noise_counterexample :
    (processBuffer initRecvState (([5, 1] ++ [5] ++ [0]) ++ encodeIpcFrameV1 1 2 [])).decoded
      ≠ [⟨1, 2, []⟩] := by
  rw [processBuffer_eq]
  decide

/-- C4 (amended): for noise none of whose bytes is the sync byte 0x05,
followed by a sync byte, a wrong version byte, and one valid frame, the
state machine decodes exactly the one valid frame. -/
theorem resync_after_bad_version (noise : List Nat) (bad r c : Nat) (p : List Nat)
    (hnoise : ∀ b ∈ noise, b ≠ 5) (hbad : bad ≠ 1)
    (hr : r < 256) (hc : c < 256) (hp : ∀ b ∈ p, b < 256)
    (hlen : p.length + 2 ≤ 65535) :
    (processBuffer initRecvState (noise ++ 5 :: bad :: encodeIpcFrameV1 r c p)).decoded
      = [⟨r, c, p⟩] := by
  rw [processBuffer_eq, receiveBytes_append,
    receiveBytes_noise noise initRecvState rfl hnoise, receiveBytes_cons]
  have h1 : receiveByteStep initRecvState 5 =
      { initRecvState with frameLength := -1, frameData := [], frameState := .searchVersion } := by
    simp [receiveByteStep, initRecvState]
  rw [h1, receiveBytes_cons]
  have h2 : receiveByteStep
      { initRecvState with frameLength := -1, frameData := [], frameState := .searchVersion }
      bad =
      { initRecvState with frameLength := -1, frameData := [], frameState := .searchEnq } := by
    simp [receiveByteStep, hbad]
  rw [h2, receiveBytes_encode _ rfl]
  simp [initRecvState]

/-- Witness for the amended C4 at noise [7], bad version byte 0, frame
(requestId 1, command 2, payload [3]). -/
theorem resync_after_bad_version_witness :
    ((∀ b ∈ [(7 : Nat)], b ≠ 5) ∧ (0 : Nat) ≠ 1 ∧ (1 : Nat) < 256 ∧ (2 : Nat) < 256
      ∧ (∀ b ∈ [(3 : Nat)], b < 256) ∧ [(3 : Nat)].length + 2 ≤ 65535)
    ∧ (processBuffer initRecvState ([7] ++ 5 :: 0 :: encodeIpcFrameV1 1 2 [3])).decoded
        = [⟨1, 2, [3]⟩] :=
  ⟨⟨by decide, by decide, by decide, by decide, by decide, by decide⟩,
    resync_after_bad_version [7] 0 1 2 [3]
      (by decide) (by decide) (by decide) (by decide) (by decide) (by decide)⟩

/-- C3 counterexample: the responses table is one package-level map shared by
every PowClient in the process, so a frame stored by instance one's reader
changes what a call on instance two observes for the same request id —
the instances interfere. -/
theorem responses_table_shared_across_instances :
    observeResponse
        (storeResponse ⟨⟨0⟩, ⟨0⟩, fun _ => none⟩ ClientId.one ⟨1, 2, [9]⟩)
        ClientId.two 1
      ≠ observeResponse ⟨⟨0⟩, ⟨0⟩, fun _ => none⟩ ClientId.two 1 := by
  simp [observeResponse, storeResponse, claimResponse]

/-- C3 (amended): the request-id counter is per-instance state — allocation
on one instance leaves the other instance's counter untouched — but the
pending-response table is a process-wide global: a frame stored by one
instance's reader is observed (and claimed) by a call on the other instance
polling that id. -/
theorem requestid_instance_local_responses_global (w : TwoClientWorld) (fr : IpcFrameV1) :
    ((allocRequestId w ClientId.one).2.client2 = w.client2
      ∧ (allocRequestId w ClientId.two).2.client1 = w.client1)
    ∧ observeResponse (storeResponse w ClientId.one fr) ClientId.two fr.ReqID = some fr := by
  refine ⟨⟨rfl, rfl⟩, ?_⟩
  simp [observeResponse, storeResponse, claimResponse]

/-- C5: the reply dispatch returns the payload on IpcCmdResponse, the payload
bytes as error text on IpcCmdError, and the unknown-command protocol error
for any other command value in reply position. -/
theorem reply_command_dispatch (frame : IpcFrameV1) :
    (frame.Command = IpcCmdResponse → evalResponseFrame frame = Except.ok frame.Data)
    ∧ (frame.Command = IpcCmdError →
        evalResponseFrame frame = Except.error (.errorFrameText frame.Data))
    ∧ (frame.Command ≠ IpcCmdResponse → frame.Command ≠ IpcCmdError →
        evalResponseFrame frame = Except.error (.unknownCommand frame.Command)) := by
  refine ⟨fun h => ?_, fun h => ?_, fun h1 h2 => ?_⟩
  · simp [evalResponseFrame, h]
  · have hne : IpcCmdError ≠ IpcCmdResponse := by decide
    simp [evalResponseFrame, h, hne]
  · simp [evalResponseFrame, h1, h2]

/-- Witness for C5 at an Error reply frame. -/
theorem reply_command_dispatch_witness :
    ((⟨1, 3, [65]⟩ : IpcFrameV1).Command = IpcCmdError)
    ∧ evalResponseFrame ⟨1, 3, [65]⟩ = Except.error (.errorFrameText [65]) :=
  ⟨by decide, (reply_command_dispatch ⟨1, 3, [65]⟩).2.1 (by decide)⟩

/-- C6: PowFunc rejects any minWeightMagnitude outside 0..=243 locally,
before anything is sent, and accepts 0 and 243, sending the difficulty
byte followed by the trytes bytes. -/
theorem powfunc_difficulty_bounds (trytes : List Nat) (minWeightMagnitude : Int) :
    ((minWeightMagnitude < 0 ∨ minWeightMagnitude > 243) →
        powFuncRequestData trytes minWeightMagnitude =
          Except.error (.message "minWeightMagnitude out of range [0-243]"))
    ∧ powFuncRequestData trytes 0 = Except.ok (0 :: trytes)
    ∧ powFuncRequestData trytes 243 = Except.ok (243 :: trytes) := by
  refine ⟨fun h => ?_, ?_, ?_⟩
  · simp only [powFuncRequestData, if_pos h]
  · rfl
  · rfl

/-- Witness for C6 at minWeightMagnitude 244. -/
theorem powfunc_difficulty_bounds_witness :
    (((244 : Int) < 0 ∨ (244 : Int) > 243))
    ∧ powFuncRequestData [57] 244 =
        Except.error (.message "minWeightMagnitude out of range [0-243]") :=
  ⟨by decide, (powfunc_difficulty_bounds [57] 244).1 (by decide)⟩

/-- C7: over any finite polling trace, (a) if the response for reqID is never
in the table, the call returns the timeout error once an iteration sees
elapsed time beyond the configured timeout; (b) the timeout error is only
returned at an iteration whose elapsed time exceeds the timeout — never
earlier; (c) whatever arrives in the table after the loop has returned —
including the matching response — does not change the outcome: the late
response is never delivered to this call. -/
theorem poll_timeout_spec (td : Int) (reqID : Nat) (trace extra : List PollObs) :
    ((∀ o ∈ trace, o.table reqID = none) → (∃ o ∈ trace, o.elapsedMs > td) →
        pollForResponse td reqID trace = some (Except.error (.message "Receive timeout")))
    ∧ (pollForResponse td reqID trace = some (Except.error (.message "Receive timeout")) →
        ∃ o ∈ trace, o.elapsedMs > td)
    ∧ (∀ result, pollForResponse td reqID trace = some result →
        pollForResponse td reqID (trace ++ extra) = some result) := by
  induction trace with
  | nil =>
    refine ⟨fun _ hex => ?_, fun h => ?_, fun result h => ?_⟩
    · simp at hex
    · simp [pollForResponse] at h
    · simp [pollForResponse] at h
  | cons o rest ih =>
    obtain ⟨ih1, ih2, ih3⟩ := ih
    refine ⟨?_, ?_, ?_⟩
    · intro hnone hex
      by_cases he : o.elapsedMs > td
      · simp [pollForResponse, he]
      · have ht : o.table reqID = none := hnone o (List.mem_cons_self o rest)
        have hcl : (claimResponse o.table reqID).1 = none := by
          simp [claimResponse, ht]
        have hex2 : ∃ x ∈ rest, x.elapsedMs > td := by
          rcases hex with ⟨x, hx, hgt⟩
          rcases List.mem_cons.mp hx with h | h
          · exact absurd (h ▸ hgt) he
          · exact ⟨x, h, hgt⟩
        simp only [pollForResponse, if_neg he, hcl]
        exact ih1 (fun x hx => hnone x (List.mem_cons_of_mem o hx)) hex2
    · intro h
      by_cases he : o.elapsedMs > td
      · exact ⟨o, List.mem_cons_self o rest, he⟩
      · cases hcl : (claimResponse o.table reqID).1 with
        | some fr => simp [pollForResponse, if_neg he, hcl] at h
        | none =>
          simp only [pollForResponse, if_neg he, hcl] at h
          rcases ih2 h with ⟨x, hx, hgt⟩
          exact ⟨x, List.mem_cons_of_mem o hx, hgt⟩
    · intro result h
      by_cases he : o.elapsedMs > td
      · simp only [pollForResponse, if_pos he] at h
        simp only [List.cons_append, pollForResponse, if_pos he]
        exact h
      · cases hcl : (claimResponse o.table reqID).1 with
        | some fr =>
          simp only [pollForResponse, if_neg he, hcl] at h
          simp only [List.cons_append, pollForResponse, if_neg he, hcl]
          exact h
        | none =>
          simp only [pollForResponse, if_neg he, hcl] at h
          simp only [List.cons_append, pollForResponse, if_neg he, hcl]
          exact ih3 result h

/-- Witness for C7: timeout 5 ms, two empty-table polls at 3 ms and 6 ms,
then a late matching response at 7 ms that is not delivered. -/
theorem poll_timeout_spec_witness :
    ((∀ o ∈ [PollObs.mk 3 (fun _ => none), PollObs.mk 6 (fun _ => none)], o.table 1 = none)
      ∧ (∃ o ∈ [PollObs.mk 3 (fun _ => none), PollObs.mk 6 (fun _ => none)],
          o.elapsedMs > 5))
    ∧ pollForResponse 5 1 [PollObs.mk 3 (fun _ => none), PollObs.mk 6 (fun _ => none)]
        = some (Except.error (.message "Receive timeout"))
    ∧ pollForResponse 5 1
        ([PollObs.mk 3 (fun _ => none), PollObs.mk 6 (fun _ => none)] ++
          [PollObs.mk 7 (fun k => if k = 1 then some ⟨1, 2, [65]⟩ else none)])
        = some (Except.error (.message "Receive timeout")) := by
  have h1 : ∀ o ∈ [PollObs.mk 3 (fun _ => none), PollObs.mk 6 (fun _ => none)],
      o.table 1 = none := by
    intro o ho
    rcases List.mem_cons.mp ho with h | h
    · rw [h]
    · rcases List.mem_cons.mp h with h2 | h2
      · rw [h2]
      · simp at h2
  have h2 : ∃ o ∈ [PollObs.mk 3 (fun _ => none), PollObs.mk 6 (fun _ => none)],
      o.elapsedMs > 5 :=
    ⟨PollObs.mk 6 (fun _ => none), by simp, by norm_num⟩
  have hmain := (poll_timeout_spec 5 1
    [PollObs.mk 3 (fun _ => none), PollObs.mk 6 (fun _ => none)]
    [PollObs.mk 7 (fun k => if k = 1 then some ⟨1, 2, [65]⟩ else none)]).1 h1 h2
  exact ⟨⟨h1, h2⟩, hmain,
    (poll_timeout_spec 5 1
      [PollObs.mk 3 (fun _ => none), PollObs.mk 6 (fun _ => none)]
      [PollObs.mk 7 (fun k => if k = 1 then some ⟨1, 2, [65]⟩ else none)]).2.2 _ hmain⟩

/-- C8: the claiming step removes exactly the caller's own entry: afterwards
its own id maps to nothing, and every other id maps to exactly what it
mapped to before. -/
theorem claim_removes_exactly_own_id (responses : Nat → Option IpcFrameV1)
    (reqID k : Nat) (hk : k ≠ reqID) :
    (claimResponse responses reqID).2 reqID = none
    ∧ (claimResponse responses reqID).2 k = responses k := by
  cases h : responses reqID with
  | some fr => refine ⟨?_, ?_⟩ <;> simp [claimResponse, h, hk]
  | none => refine ⟨?_, ?_⟩ <;> simp [claimResponse, h]

/-- Witness for C8 on a two-entry table, claiming id 1 and checking id 2. -/
theorem claim_removes_exactly_own_id_witness :
    ((2 : Nat) ≠ 1)
    ∧ (claimResponse
        (fun k => if k = 1 then some ⟨1, 2, []⟩ else if k = 2 then some ⟨2, 3, []⟩ else none)
        1).2 1 = none
    ∧ (claimResponse
        (fun k => if k = 1 then some ⟨1, 2, []⟩ else if k = 2 then some ⟨2, 3, []⟩ else none)
        1).2 2 =
      (fun k => if k = 1 then some ⟨1, 2, []⟩ else if k = 2 then some ⟨2, 3, []⟩ else none)
        (2 : Nat) := by
  refine ⟨by decide, ?_, ?_⟩
  · exact (claim_removes_exactly_own_id _ 1 2 (by decide)).1
  · exact (claim_removes_exactly_own_id _ 1 2 (by decide)).2

/-- C9: PowFunc validates the server response as trytes: a response that is
not a valid trytes string yields an error (and no result), and every
non-error result is the response itself, a valid trytes value. -/
theorem powfunc_result_valid_trytes (response : List Nat) :
    (response.all isTryteByte = false →
        powFuncResult response = Except.error (.message "invalid trytes"))
    ∧ (∀ result, powFuncResult response = Except.ok result →
        result.all isTryteByte = true ∧ result = response) := by
  constructor
  · intro h
    simp [powFuncResult, ToTrytes, h]
  · intro result h
    by_cases hv : response.all isTryteByte
    · simp only [powFuncResult, ToTrytes, if_pos hv] at h
      cases h
      exact ⟨hv, rfl⟩
    · simp [powFuncResult, ToTrytes, hv] at h

/-- Witness for C9 at the invalid response [0]. -/
theorem powfunc_result_valid_trytes_witness :
    ([(0 : Nat)].all isTryteByte = false)
    ∧ powFuncResult [0] = Except.error (.message "invalid trytes") :=
  ⟨by decide, (powfunc_result_valid_trytes [0]).1 (by decide)⟩

/-- When serialization fails, sendToServer returns that error and writes
nothing, whatever the connection state. -/
theorem sendToServer_serialize_error (hasConnection : Bool) (requestMsg : IpcMessage)
    (e : GoError) (h : ipcMessageToBytes requestMsg = Except.error e) :
    sendToServer hasConnection requestMsg = (Except.error e, []) := by
  unfold sendToServer
  rw [h]

/-- C10 counterexample: with a nil connection but an oversized payload,
sendToServer returns the serialization error — not "Connection not
established" (it still writes nothing and never touches the connection). -/
theorem send_nil_connection_counterexample :
    (sendToServer false ⟨1, 7, List.replicate 65534 0⟩).1 ≠
      Except.error (.message "Connection not established") := by
  have hlen : (List.replicate 65534 (0 : Nat)).length + 2 > 65535 := by
    rw [List.length_replicate]
    omega
  have h : ipcMessageToBytes ⟨1, 7, List.replicate 65534 0⟩ =
      Except.error (.message "payload length overflows the 16-bit length field") := by
    show (if (List.replicate 65534 (0 : Nat)).length + 2 > 65535 then
        (Except.error (GoError.message "payload length overflows the 16-bit length field") :
          Except GoError (List Nat))
      else Except.ok (encodeIpcFrameV1 1 7 (List.replicate 65534 0))) =
      Except.error (GoError.message "payload length overflows the 16-bit length field")
    rw [if_pos hlen]
  rw [sendToServer_serialize_error false _ _ h]
  intro heq
  injection heq with h2
  injection h2 with h3
  exact absurd h3 (by decide)

/-- C10 (amended): with a nil connection the call writes nothing and never
dereferences the connection; whenever the request serializes, the returned
error is "Connection not established" (if serialization itself fails, that
error is returned instead, still with nothing written). -/
theorem send_nil_connection_no_write (requestMsg : IpcMessage) :
    (sendToServer false requestMsg).2 = []
    ∧ (∀ request, ipcMessageToBytes requestMsg = Except.ok request →
        (sendToServer false requestMsg).1 =
          Except.error (.message "Connection not established")) := by
  constructor
  · cases h : ipcMessageToBytes requestMsg <;> simp [sendToServer, h]
  · intro request h
    simp [sendToServer, h]

/-- Witness for the amended C10 at a small request that serializes. -/
theorem send_nil_connection_no_write_witness :
    (ipcMessageToBytes ⟨1, 4, []⟩ = Except.ok (encodeIpcFrameV1 1 4 []))
    ∧ (sendToServer false ⟨1, 4, []⟩).2 = []
    ∧ (sendToServer false ⟨1, 4, []⟩).1 =
        Except.error (.message "Connection not established") := by
  refine ⟨rfl, (send_nil_connection_no_write ⟨1, 4, []⟩).1, ?_⟩
  exact (send_nil_connection_no_write ⟨1, 4, []⟩).2 (encodeIpcFrameV1 1 4 []) rfl

end PowSrv
